import Mathlib

/-!
Verification development for the bloxapp/slashing-protector service.

The decision engine is embedded from src/protector/protector.go, the HTTP
request fingerprinting from the http package (request types and their Hash
methods plus their unit tests), the client from the http client with
fingerprint verification, the connection handle from the kvpool package,
and the JSON hex decoders from the http package.

The per-validator KV store itself is the external dependency
prysmaticlabs/prysm validator/db/kv; its operations are modelled from
spec section 4.1, which fixes the contract the engine consumes.
All machine integers (slots, epochs, 64-bit hashes) are modelled as Nat,
with explicit reduction mod 2 ^ 64 where 64-bit overflow matters.
Byte arrays (roots, public keys) are lists of byte values.
-/

namespace SlashingProtector

/-- A 32-byte signing root (or block root), as a list of byte values. -/
abbrev Root := List Nat

/-- The all-zero root: Go zero value of [32]byte, and `params.BeaconConfig().ZeroHash`. -/
def zeroRoot : Root := List.replicate 32 0

/-- A checkpoint `(epoch, root)` as in phase0.Checkpoint. -/
structure Checkpoint where
  epoch : Nat
  root : Root
deriving DecidableEq, Repr

/-- phase0.AttestationData with non-nil source and target (the engine dereferences both). -/
structure AttestationData where
  slot : Nat
  index : Nat
  beaconBlockRoot : Root
  source : Checkpoint
  target : Checkpoint
deriving DecidableEq, Repr

/-- One recorded attestation: `(source epoch, target epoch, signing root)`, as in
kv.AttestationRecord. -/
structure AttestationRecord where
  source : Nat
  target : Nat
  signingRoot : Root
deriving DecidableEq, Repr

/-- Modelled from the spec: the per-validator history held by the embedded KV store
(prysmaticlabs/prysm validator/db/kv, not under src/), per spec section 3:
a slot-to-root proposal index, an attestation log indexed by target epoch,
and the three lowest-signed watermarks, each exists-or-absent. -/
structure Store where
  proposals : List (Nat × Root)
  attestations : List AttestationRecord
  lowestSourceEpoch : Option Nat
  lowestTargetEpoch : Option Nat
  lowestProposalSlot : Option Nat
deriving DecidableEq, Repr

/-- The freshly created (lazily opened) per-validator store: no history, absent watermarks. -/
def Store.empty : Store := ⟨[], [], none, none, none⟩

/-- Modelled from the spec: `proposal_root_at_slot(slot) → Option<Root>` of section 4.1. -/
def Store.proposalHistoryForSlot (s : Store) (slot : Nat) : Option Root :=
  (s.proposals.find? (fun p => p.1 == slot)).map (fun p => p.2)

/-- Modelled from the spec: `signing_root_at_target_epoch(target) → Option<Root>` of
section 4.1, reading the target-epoch index of the attestation log. -/
def Store.signingRootAtTargetEpoch (s : Store) (epoch : Nat) : Option Root :=
  (s.attestations.find? (fun rec => rec.target == epoch)).map (fun rec => rec.signingRoot)

/-- Refresh a lowest-watermark: take the new value if absent, else the minimum. -/
def minOpt (o : Option Nat) (n : Nat) : Option Nat :=
  match o with
  | none => some n
  | some m => some (min m n)

/-- Modelled from the spec: `save_attestation` of section 4.1: append to the target-epoch
indexed log and refresh the source/target watermarks if the new values are smaller (or first). -/
def Store.saveAttestation (s : Store) (signingRoot : Root) (d : AttestationData) : Store :=
  { s with
    attestations := ⟨d.source.epoch, d.target.epoch, signingRoot⟩ :: s.attestations
    lowestSourceEpoch := minOpt s.lowestSourceEpoch d.source.epoch
    lowestTargetEpoch := minOpt s.lowestTargetEpoch d.target.epoch }

/-- Modelled from the spec: `save_proposal` of section 4.1: update the slot-to-root index
and the proposal-slot watermark. -/
def Store.saveProposal (s : Store) (slot : Nat) (signingRoot : Root) : Store :=
  { s with
    proposals := (slot, signingRoot) :: s.proposals
    lowestProposalSlot := minOpt s.lowestProposalSlot slot }

/-- Modelled from the spec: `slashings.SigningRootsDiffer` as section 4.3.1 step 3 words it:
`roots_differ = existing.is_none_or_zero() or existing != signing_root`
(an all-zero stored root is treated as unknown). -/
def rootsDiffer (existing : Option Root) (incoming : Root) : Bool :=
  match existing with
  | none => true
  | some r => r == zeroRoot || r != incoming

/-- The verdict of `check_slashable_attestation`, as in Prysm kv. -/
inductive SlashingKind
  | noKind
  | doubleVote
  | surroundingVote
  | surroundedVote
deriving DecidableEq, Repr

/-- `(s1, t1)` surrounds `(s2, t2)`: strict containment of the source/target interval. -/
def surrounds (s1 t1 s2 t2 : Nat) : Bool :=
  decide (s1 < s2) && decide (t2 < t1)

/-- Modelled from the spec: `check_slashable_attestation` of section 4.1: the Prysm-style
check of double vote at the same target with a differing signing root, plus surround and
surrounded votes against the recorded attestation log. It does not mutate history. -/
def Store.checkSlashableAttestation (s : Store) (signingRoot : Root) (d : AttestationData) :
    SlashingKind :=
  let existing := s.signingRootAtTargetEpoch d.target.epoch
  if existing.isSome && rootsDiffer existing signingRoot then .doubleVote
  else if s.attestations.any
      (fun rec => surrounds d.source.epoch d.target.epoch rec.source rec.target) then
    .surroundingVote
  else if s.attestations.any
      (fun rec => surrounds rec.source rec.target d.source.epoch d.target.epoch) then
    .surroundedVote
  else .noKind

/-- The verdict of a check: not slashable, or slashable with the reason produced by
the corresponding branch of protector.go. -/
inductive Verdict
  | notSlashable
  | lowSourceEpoch
  | lowTargetEpoch
  | doubleVoteAtt
  | surroundingAtt
  | surroundedAtt
  | doubleProposal
  | lowProposalSlot
deriving DecidableEq, Repr

/-- `protector.CheckAttestation` from src/protector/protector.go (lines 106-202),
with the store reads and the write made explicit on the `Store` state.
Error plumbing (store I/O failures) is outside the model; the pure decision
sequence is translated branch for branch. -/
def checkAttestation (s : Store) (signingRoot : Root) (d : AttestationData) :
    Verdict × Store :=
  if (match s.lowestSourceEpoch with
      | some lowest => decide (d.source.epoch < lowest)
      | none => false) then
    (.lowSourceEpoch, s)
  else
    let existingSigningRoot := s.signingRootAtTargetEpoch d.target.epoch
    let signingRootsDiffer := rootsDiffer existingSigningRoot signingRoot
    if (signingRootsDiffer &&
        match s.lowestTargetEpoch with
        | some lowest => decide (d.target.epoch ≤ lowest)
        | none => false) then
      (.lowTargetEpoch, s)
    else
      match s.checkSlashableAttestation signingRoot d with
      | .doubleVote => (.doubleVoteAtt, s)
      | .surroundingVote => (.surroundingAtt, s)
      | .surroundedVote => (.surroundedAtt, s)
      | .noKind => (.notSlashable, s.saveAttestation signingRoot d)

/-- `signingRootIsDifferent` of protector.CheckProposal (protector.go line 237):
the previous root is the zero hash, or differs from the incoming one. An absent
previous root reads as the Go zero value, the zero hash. -/
def proposalRootIsDifferent (prev : Option Root) (incoming : Root) : Bool :=
  prev.getD zeroRoot == zeroRoot || prev.getD zeroRoot != incoming

/-- `protector.CheckProposal` from src/protector/protector.go (lines 204-262),
translated branch for branch on the explicit `Store` state. -/
def checkProposal (s : Store) (signingRoot : Root) (slot : Nat) : Verdict × Store :=
  let prev := s.proposalHistoryForSlot slot
  let signingRootIsDifferent := proposalRootIsDifferent prev signingRoot
  if prev.isSome && signingRootIsDifferent then
    (.doubleProposal, s)
  else if ((match s.lowestProposalSlot with
            | some lowest => decide (lowest ≥ slot)
            | none => false) && signingRootIsDifferent) then
    (.lowProposalSlot, s)
  else
    (.notSlashable, s.saveProposal slot signingRoot)

/-- The attestation-check procedure exactly as spec section 4.3.1 words it, step by step
with short-circuiting: step 2 the strict lowest-source check, steps 3-4 the
lowest-target check gated on `roots_differ`, step 5 the Prysm-style check, step 6 the save.
Written from the words of the spec, to be compared with `checkAttestation`. -/
def specCheckAttestation (s : Store) (signingRoot : Root) (d : AttestationData) :
    Verdict × Store :=
  if s.lowestSourceEpoch.isSome && decide (d.source.epoch < s.lowestSourceEpoch.getD 0) then
    (.lowSourceEpoch, s)
  else
    let existing := s.signingRootAtTargetEpoch d.target.epoch
    let rootsDifferSpec : Bool :=
      existing.isNone || existing.getD zeroRoot == zeroRoot ||
        existing.getD zeroRoot != signingRoot
    if s.lowestTargetEpoch.isSome && rootsDifferSpec &&
        decide (d.target.epoch ≤ s.lowestTargetEpoch.getD 0) then
      (.lowTargetEpoch, s)
    else
      match s.checkSlashableAttestation signingRoot d with
      | .doubleVote => (.doubleVoteAtt, s)
      | .surroundingVote => (.surroundingAtt, s)
      | .surroundedVote => (.surroundedAtt, s)
      | .noKind => (.notSlashable, s.saveAttestation signingRoot d)

/-- The proposal-check procedure exactly as spec section 4.3.2 words it:
step 5 the double-proposal check, step 6 the lowest-slot check with the
non-strict comparison, step 7 the save. Written from the words of the spec,
to be compared with `checkProposal`. -/
def specCheckProposal (s : Store) (signingRoot : Root) (slot : Nat) : Verdict × Store :=
  let prev := s.proposalHistoryForSlot slot
  let existsAtSlot := prev.isSome
  let rootsDifferSpec : Bool :=
    prev.isNone || prev.getD zeroRoot == zeroRoot || prev.getD zeroRoot != signingRoot
  if existsAtSlot && rootsDifferSpec then
    (.doubleProposal, s)
  else if s.lowestProposalSlot.isSome && rootsDifferSpec &&
      decide (slot ≤ s.lowestProposalSlot.getD 0) then
    (.lowProposalSlot, s)
  else
    (.notSlashable, s.saveProposal slot signingRoot)

/-- One request against a fixed `(network, pub_key)`: a proposal or an attestation. -/
inductive Op
  | proposal (signingRoot : Root) (slot : Nat)
  | attestation (signingRoot : Root) (data : AttestationData)
deriving DecidableEq, Repr

/-- Dispatch one request to the engine, as the HTTP handlers do. -/
def applyOp (s : Store) : Op → Verdict × Store
  | .proposal r slot => checkProposal s r slot
  | .attestation r d => checkAttestation s r d

/-- Run a sequence of requests, returning the final store and the sublist of
requests that were accepted (verdict not slashable) and therefore recorded. -/
def runOps (s : Store) : List Op → Store × List Op
  | [] => (s, [])
  | op :: rest =>
    let step := applyOp s op
    let tail := runOps step.2 rest
    (tail.1, if step.1 = .notSlashable then op :: tail.2 else tail.2)

/-- The requests recorded into history by a sequence of checks on a fresh store. -/
def recordedOps (ops : List Op) : List Op := (runOps Store.empty ops).2

/-! ### Request fingerprinting

The request envelope hashes the canonical byte sequence of spec section 4.4 with
xxHash64 (seed 0), via the cespare/xxhash library. The byte feeding order is the
one of the request Hash methods in the http package. xxHash64 itself is an
external library, modelled here from the reference xxHash64 algorithm. -/

/-- xxHash64 prime 1. -/
def xxPrime1 : Nat := 11400714785074694791

/-- xxHash64 prime 2. -/
def xxPrime2 : Nat := 14029467366897019727

/-- xxHash64 prime 3. -/
def xxPrime3 : Nat := 1609587929392839161

/-- xxHash64 prime 4. -/
def xxPrime4 : Nat := 9650029242287828579

/-- xxHash64 prime 5. -/
def xxPrime5 : Nat := 2870177450012600261

/-- 64-bit wrapping addition. -/
def add64 (a b : Nat) : Nat := (a + b) % 2 ^ 64

/-- 64-bit wrapping multiplication. -/
def mul64 (a b : Nat) : Nat := (a * b) % 2 ^ 64

/-- 64-bit left rotation, for 0 < r < 64 and x < 2 ^ 64. -/
def rotl64 (x r : Nat) : Nat := (x <<< r) % 2 ^ 64 ||| x >>> (64 - r)

/-- A 64-bit lane read little-endian from eight bytes. -/
def le64 (b0 b1 b2 b3 b4 b5 b6 b7 : Nat) : Nat :=
  b0 + 256 * (b1 + 256 * (b2 + 256 * (b3 + 256 * (b4 + 256 * (b5 + 256 * (b6 + 256 * b7))))))

/-- The xxHash64 accumulator round. -/
def xxRound (acc lane : Nat) : Nat :=
  mul64 (rotl64 (add64 acc (mul64 lane xxPrime2)) 31) xxPrime1

/-- The xxHash64 merge round applied to each accumulator of a long input. -/
def xxMergeRound (acc val : Nat) : Nat :=
  add64 (mul64 (Nat.xor acc (xxRound 0 val)) xxPrime1) xxPrime4

/-- Consume 32-byte stripes into the four accumulators while at least 32 bytes remain. -/
def xxStripes (v1 v2 v3 v4 : Nat) : List Nat → Nat × Nat × Nat × Nat × List Nat
  | a0 :: a1 :: a2 :: a3 :: a4 :: a5 :: a6 :: a7 ::
    b0 :: b1 :: b2 :: b3 :: b4 :: b5 :: b6 :: b7 ::
    c0 :: c1 :: c2 :: c3 :: c4 :: c5 :: c6 :: c7 ::
    d0 :: d1 :: d2 :: d3 :: d4 :: d5 :: d6 :: d7 :: rest =>
    xxStripes (xxRound v1 (le64 a0 a1 a2 a3 a4 a5 a6 a7))
      (xxRound v2 (le64 b0 b1 b2 b3 b4 b5 b6 b7))
      (xxRound v3 (le64 c0 c1 c2 c3 c4 c5 c6 c7))
      (xxRound v4 (le64 d0 d1 d2 d3 d4 d5 d6 d7)) rest
  | l => (v1, v2, v3, v4, l)

/-- Consume trailing 8-byte chunks of the tail. -/
def xxTail8 (h : Nat) : List Nat → Nat × List Nat
  | a0 :: a1 :: a2 :: a3 :: a4 :: a5 :: a6 :: a7 :: rest =>
    xxTail8
      (add64 (mul64 (rotl64 (Nat.xor h (xxRound 0 (le64 a0 a1 a2 a3 a4 a5 a6 a7))) 27) xxPrime1)
        xxPrime4) rest
  | l => (h, l)

/-- Consume one trailing 4-byte chunk of the tail, if present. -/
def xxTail4 (h : Nat) : List Nat → Nat × List Nat
  | a0 :: a1 :: a2 :: a3 :: rest =>
    (add64 (mul64 (rotl64 (Nat.xor h (mul64 (a0 + 256 * (a1 + 256 * (a2 + 256 * a3))) xxPrime1))
      23) xxPrime2) xxPrime3, rest)
  | l => (h, l)

/-- Consume the trailing bytes of the tail one by one. -/
def xxTail1 (h : Nat) : List Nat → Nat
  | [] => h
  | b :: rest => xxTail1 (mul64 (rotl64 (Nat.xor h (mul64 b xxPrime5)) 11) xxPrime1) rest

/-- The xxHash64 final avalanche. -/
def xxAvalanche (h : Nat) : Nat :=
  let h1 := mul64 (Nat.xor h (h >>> 33)) xxPrime2
  let h2 := mul64 (Nat.xor h1 (h1 >>> 29)) xxPrime3
  Nat.xor h2 (h2 >>> 32)

/-- xxHash64 with seed 0 over a byte sequence (the reference algorithm, as used by
cespare/xxhash through `xxhash.New()`). -/
def xxh64 (input : List Nat) : Nat :=
  let n := input.length
  let start :=
    if 32 ≤ n then
      let s := xxStripes (add64 xxPrime1 xxPrime2) xxPrime2 0 (2 ^ 64 - xxPrime1) input
      (add64
        (xxMergeRound
          (xxMergeRound
            (xxMergeRound
              (xxMergeRound
                (add64 (add64 (add64 (rotl64 s.1 1) (rotl64 s.2.1 7)) (rotl64 s.2.2.1 12))
                  (rotl64 s.2.2.2.1 18)) s.1) s.2.1) s.2.2.1) s.2.2.2.1) n,
        s.2.2.2.2)
    else (add64 xxPrime5 n, input)
  let t8 := xxTail8 start.1 start.2
  let t4 := xxTail4 t8.1 t8.2
  xxAvalanche (xxTail1 t4.1 t4.2)

/-- The little-endian eight-byte encoding of a 64-bit value, as `writeUint64` emits. -/
def u64le (v : Nat) : List Nat :=
  [v % 256, v / 2 ^ 8 % 256, v / 2 ^ 16 % 256, v / 2 ^ 24 % 256,
   v / 2 ^ 32 % 256, v / 2 ^ 40 % 256, v / 2 ^ 48 % 256, v / 2 ^ 56 % 256]

/-- The canonical byte sequence of a proposal check request, in the exact feeding
order of the proposal request Hash method in the http package:
timestamp, pub_key (48 bytes), signing_root (32 bytes), slot. -/
def proposalRequestBytes (timestamp : Nat) (pubKey : List Nat) (signingRoot : Root)
    (slot : Nat) : List Nat :=
  u64le timestamp ++ pubKey ++ signingRoot ++ u64le slot

/-- The fingerprint of a proposal check request. -/
def proposalRequestHash (timestamp : Nat) (pubKey : List Nat) (signingRoot : Root)
    (slot : Nat) : Nat :=
  xxh64 (proposalRequestBytes timestamp pubKey signingRoot slot)

/-- The canonical byte sequence of an attestation check request, in the exact feeding
order of the attestation request Hash method in the http package: timestamp, pub_key,
signing_root, data.slot, data.committee_index, data.beacon_block_root, data.source.root,
data.source.epoch, data.target.root, data.target.epoch. -/
def attestationRequestBytes (timestamp : Nat) (pubKey : List Nat) (signingRoot : Root)
    (slot index : Nat) (beaconBlockRoot : Root) (source target : Checkpoint) : List Nat :=
  u64le timestamp ++ pubKey ++ signingRoot ++ u64le slot ++ u64le index ++
    beaconBlockRoot ++ source.root ++ u64le source.epoch ++ target.root ++ u64le target.epoch

/-- The fingerprint of an attestation check request with non-nil source and target. -/
def attestationRequestHash (timestamp : Nat) (pubKey : List Nat) (signingRoot : Root)
    (slot index : Nat) (beaconBlockRoot : Root) (source target : Checkpoint) : Nat :=
  xxh64 (attestationRequestBytes timestamp pubKey signingRoot slot index beaconBlockRoot
    source target)

/-- A byte array of the given size with the given leading bytes and zeros after them,
mirroring Go array literals such as `[48]byte{1, 2, 3}`. -/
def bytesPad (lead : List Nat) (size : Nat) : List Nat :=
  lead ++ List.replicate (size - lead.length) 0

/-! ### Transport layer: server handlers and the verifying client -/

/-- phase0.AttestationData as decoded from JSON: source and target are pointers
and may be absent. -/
structure AttestationDataJ where
  slot : Nat
  index : Nat
  beaconBlockRoot : Root
  source : Option Checkpoint
  target : Option Checkpoint
deriving DecidableEq, Repr

/-- The Hash method of the attestation check request (http package): fails when
source or target is nil, else hashes the canonical byte sequence. -/
def checkAttestationRequestHash (timestamp : Nat) (pubKey : List Nat) (signingRoot : Root)
    (d : AttestationDataJ) : Option Nat :=
  match d.source, d.target with
  | some src, some tgt =>
    some (attestationRequestHash timestamp pubKey signingRoot d.slot d.index
      d.beaconBlockRoot src tgt)
  | _, _ => none

/-- The checkResponse envelope of the http package: fingerprint echo, optional check
result, status code and optional error text (empty string when absent, as in Go). -/
structure CheckResponse where
  hash : Nat
  check : Option Verdict
  statusCode : Nat
  errorMsg : String
deriving DecidableEq, Repr

/-- The proposal handler of the http server draft under src/: a request with
slot 0 is answered with status 400 and the genesis-slot error before the decision
engine runs; otherwise the engine runs and its verdict is returned.
Modelled from the spec: the fingerprint echo in the success response (spec
section 4.4; the server drafts under src/ predate the echo). -/
def serverHandleCheckProposal (s : Store) (timestamp : Nat) (pubKey : List Nat)
    (signingRoot : Root) (slot : Nat) : CheckResponse × Store :=
  if slot = 0 then
    ({ hash := 0, check := none, statusCode := 400,
       errorMsg := "can not propose at genesis slot" }, s)
  else
    let step := checkProposal s signingRoot slot
    ({ hash := proposalRequestHash timestamp pubKey signingRoot slot,
       check := some step.1, statusCode := 0, errorMsg := "" }, step.2)

/-- The attestation handler. Modelled from the spec: the fingerprint echo and the
InvalidInput failure for a missing source or target (spec section 4.4; the server
drafts under src/ predate the echo). The engine dispatch follows the attestation
handler of the server draft under src/. -/
def serverHandleCheckAttestation (s : Store) (timestamp : Nat) (pubKey : List Nat)
    (signingRoot : Root) (d : AttestationDataJ) : CheckResponse × Store :=
  match d.source, d.target with
  | some src, some tgt =>
    let step := checkAttestation s signingRoot ⟨d.slot, d.index, d.beaconBlockRoot, src, tgt⟩
    ({ hash := attestationRequestHash timestamp pubKey signingRoot d.slot d.index
         d.beaconBlockRoot src tgt,
       check := some step.1, statusCode := 0, errorMsg := "" }, step.2)
  | _, _ =>
    ({ hash := 0, check := none, statusCode := 400,
       errorMsg := "source and target are required" }, s)

/-- The ways the verifying client returns without a verdict (http client under src/). -/
inductive ClientError
  | dataRequired
  | invalidInput
  | zeroHash
  | serverError (msg : String)
  | mismatchingHash
  | malformedResponse
deriving DecidableEq, Repr

/-- The response validation sequence of the verifying client under src/: a server
error aborts, then a fingerprint mismatch aborts, then a missing check aborts,
and only then the verdict is returned. -/
def clientProcessResponse (localHash : Nat) (resp : CheckResponse) :
    Except ClientError Verdict :=
  if resp.errorMsg ≠ "" then .error (.serverError resp.errorMsg)
  else if resp.hash ≠ localHash then .error .mismatchingHash
  else
    match resp.check with
    | none => .error .malformedResponse
    | some v => .ok v

/-- The tail of the client CheckAttestation once the local fingerprint `h` is known:
a zero fingerprint is rejected before anything is sent, otherwise the request is
sent and the response validated against `h`. -/
def clientSendAttestation (s : Store) (h now : Nat) (pubKey : List Nat) (signingRoot : Root)
    (d : AttestationDataJ) : Except ClientError Verdict × Store :=
  if h = 0 then (.error .zeroHash, s)
  else
    let step := serverHandleCheckAttestation s now pubKey signingRoot d
    (clientProcessResponse h step.1, step.2)

/-- CheckAttestation of the verifying client under src/, connected to the server
handler: nil data is rejected, then the request fingerprint is computed (failing
for nil source or target), and the request proceeds through `clientSendAttestation`.
`now` is the timestamp the client stamps into the request. -/
def clientCheckAttestation (s : Store) (now : Nat) (pubKey : List Nat) (signingRoot : Root)
    (data : Option AttestationDataJ) : Except ClientError Verdict × Store :=
  match data with
  | none => (.error .dataRequired, s)
  | some d =>
    match checkAttestationRequestHash now pubKey signingRoot d with
    | none => (.error .invalidInput, s)
    | some h => clientSendAttestation s h now pubKey signingRoot d

/-! ### The connection handle of the kvpool package

The permit is the weighted semaphore of golang.org/x/sync with capacity one;
its Release panics when releasing more than is held. `permits` counts how much
of the semaphore is currently held. -/

/-- The mutable state of a kvpool Conn: whether the store pointer is set, how much
of the binary semaphore is held, and whether the store context cancel function is set. -/
structure Conn where
  hasStore : Bool
  permits : Nat
  ctxSet : Bool
deriving DecidableEq, Repr

/-- A freshly created Conn: no store open, permit free. -/
def Conn.new : Conn := ⟨false, 0, false⟩

/-- The outcome of Conn.acquire. `blocked` stands for the semaphore wait when the
permit is already held (out of scope for the sequential claims). -/
inductive AcquireResult
  | ok
  | blocked
  | ctxCancelled
  | openFailed
deriving DecidableEq, Repr

/-- Conn.acquire from the kvpool Conn under src/: take the semaphore (a cancelled
context aborts the wait with no permit held), install the store context cancel
function, open the store; on an open failure the deferred handler releases the
permit before returning the error. `ctxCancelled` and `openFails` stand for the
caller context state and the kv.NewKVStore outcome. -/
def connAcquire (c : Conn) (ctxCancelled openFails : Bool) : AcquireResult × Conn :=
  if ctxCancelled then (.ctxCancelled, c)
  else if 1 ≤ c.permits then (.blocked, c)
  else
    let held := { c with permits := c.permits + 1, ctxSet := true }
    if openFails then (.openFailed, { held with permits := held.permits - 1 })
    else (.ok, { held with hasStore := true })

/-- The outcome of Conn.Release. `panicked` is the semaphore panic on releasing
more than is held. -/
inductive ReleaseResult
  | ok
  | closeFailed
  | notAcquired
  | panicked
deriving DecidableEq, Repr

/-- Conn.Release from the kvpool Conn under src/: the semaphore release and the
store-context cancellation are deferred and run on every path after the body;
the body returns the connection-not-acquired error when no store is open, an
error when closing the store fails (leaving the store pointer set), and
otherwise closes and clears the store. The deferred semaphore release panics
when the permit is not held. `closeFails` stands for the kv.Store.Close outcome. -/
def connRelease (c : Conn) (closeFails : Bool) : ReleaseResult × Conn :=
  let body : ReleaseResult × Conn :=
    if !c.hasStore then (.notAcquired, c)
    else if closeFails then (.closeFailed, c)
    else (.ok, { c with hasStore := false })
  if body.2.permits = 0 then (.panicked, body.2)
  else (body.1, { body.2 with permits := body.2.permits - 1 })

/-! ### The JSON hex decoders of the http package -/

/-- The byte value of a hex digit, as encoding/hex accepts it. -/
def hexDigitVal (c : Char) : Option Nat :=
  if '0' ≤ c ∧ c ≤ '9' then some (c.toNat - Char.toNat '0')
  else if 'a' ≤ c ∧ c ≤ 'f' then some (c.toNat - Char.toNat 'a' + 10)
  else if 'A' ≤ c ∧ c ≤ 'F' then some (c.toNat - Char.toNat 'A' + 10)
  else none

/-- hex.DecodeString: two hex digits per byte; an odd length or a non-hex digit fails. -/
def hexDecode : List Char → Option (List Nat)
  | [] => some []
  | [_] => none
  | c1 :: c2 :: rest =>
    match hexDigitVal c1, hexDigitVal c2, hexDecode rest with
    | some hi, some lo, some bs => some ((16 * hi + lo) :: bs)
    | _, _, _ => none

/-- strings.TrimPrefix of the optional leading 0x marker. -/
def dropHexMark : List Char → List Char
  | c1 :: c2 :: rest => if c1 = '0' ∧ c2 = 'x' then rest else c1 :: c2 :: rest
  | l => l

/-- The Go builtin copy into a fixed destination: overwrites leading elements,
stops at the shorter of the two, keeps the rest of the destination. -/
def copyInto : List Nat → List Nat → List Nat
  | [], _ => []
  | dst, [] => dst
  | _ :: dst, b :: src => b :: copyInto dst src

/-- The UnmarshalJSON bodies of jsonPubKey and jsonRoot in the http package, after
JSON string decoding: trim the 0x marker, hex-decode, and copy into a zeroed
fixed-size array. No length validation is performed. -/
def unmarshalHexInto (size : Nat) (s : List Char) : Option (List Nat) :=
  (hexDecode (dropHexMark s)).map (copyInto (List.replicate size 0))

/-- jsonPubKey.UnmarshalJSON: decode into a 48-byte array. -/
def unmarshalPubKey (s : List Char) : Option (List Nat) := unmarshalHexInto 48 s

/-- jsonRoot.UnmarshalJSON: decode into a 32-byte array. -/
def unmarshalRoot (s : List Char) : Option (List Nat) := unmarshalHexInto 32 s

/-- The lowercase hex digit character for a value below 16, as hex.EncodeToString emits. -/
def hexDigitChar (n : Nat) : Char :=
  if n < 10 then Char.ofNat (Char.toNat '0' + n) else Char.ofNat (Char.toNat 'a' + n - 10)

/-- hex.EncodeToString: two lowercase hex digits per byte. -/
def hexEncode : List Nat → List Char
  | [] => []
  | b :: bs => hexDigitChar (b / 16) :: hexDigitChar (b % 16) :: hexEncode bs

/-! ### History invariants over sequences of requests -/

/-- The pairwise consistency of two recorded requests: recorded proposals sharing a
slot share the signing root; recorded attestations sharing a target epoch share the
signing root, and neither surrounds the other. -/
def pairOK : Op → Op → Prop
  | .proposal r1 sl1, .proposal r2 sl2 => sl1 = sl2 → r1 = r2
  | .attestation r1 d1, .attestation r2 d2 =>
    (d1.target.epoch = d2.target.epoch → r1 = r2) ∧
    ¬(d1.source.epoch < d2.source.epoch ∧ d2.target.epoch < d1.target.epoch)
  | _, _ => True

/-- Every pair of recorded requests is consistent. -/
def goalOK (acc : List Op) : Prop := ∀ a ∈ acc, ∀ b ∈ acc, pairOK a b

/-- The inductive invariant tying the store state to the requests recorded so far:
every recorded proposal is the current root at its slot, every recorded attestation
is the current root at its target epoch and appears in the attestation log, and the
recorded requests are pairwise consistent. -/
structure Inv (s : Store) (acc : List Op) : Prop where
  prop_root : ∀ (r : Root) (slot : Nat), Op.proposal r slot ∈ acc →
    s.proposalHistoryForSlot slot = some r
  att_root : ∀ (r : Root) (d : AttestationData), Op.attestation r d ∈ acc →
    s.signingRootAtTargetEpoch d.target.epoch = some r
  att_log : ∀ (r : Root) (d : AttestationData), Op.attestation r d ∈ acc →
    ∃ rec, rec ∈ s.attestations ∧ rec.source = d.source.epoch ∧ rec.target = d.target.epoch
  pairs : goalOK acc

/-! ### Helper lemmas about the store operations -/

theorem proposalHistory_saveProposal_self (s : Store) (slot : Nat) (r : Root) :
    (s.saveProposal slot r).proposalHistoryForSlot slot = some r := by
  simp [Store.saveProposal, Store.proposalHistoryForSlot]

theorem proposalHistory_saveProposal_other (s : Store) (slot slot2 : Nat) (r : Root)
    (h : slot2 ≠ slot) :
    (s.saveProposal slot r).proposalHistoryForSlot slot2 = s.proposalHistoryForSlot slot2 := by
  simp [Store.saveProposal, Store.proposalHistoryForSlot, List.find?_cons,
    beq_iff_eq, h, Ne.symm h]

theorem proposalHistory_saveAttestation (s : Store) (r : Root) (d : AttestationData)
    (slot : Nat) :
    (s.saveAttestation r d).proposalHistoryForSlot slot = s.proposalHistoryForSlot slot := rfl

theorem signingRootAt_saveAttestation_self (s : Store) (r : Root) (d : AttestationData) :
    (s.saveAttestation r d).signingRootAtTargetEpoch d.target.epoch = some r := by
  simp [Store.saveAttestation, Store.signingRootAtTargetEpoch]

theorem signingRootAt_saveAttestation_other (s : Store) (r : Root) (d : AttestationData)
    (e : Nat) (h : e ≠ d.target.epoch) :
    (s.saveAttestation r d).signingRootAtTargetEpoch e = s.signingRootAtTargetEpoch e := by
  simp [Store.saveAttestation, Store.signingRootAtTargetEpoch, List.find?_cons,
    beq_iff_eq, h, Ne.symm h]

theorem signingRootAt_saveProposal (s : Store) (slot : Nat) (r : Root) (e : Nat) :
    (s.saveProposal slot r).signingRootAtTargetEpoch e = s.signingRootAtTargetEpoch e := rfl

theorem attestations_saveProposal (s : Store) (slot : Nat) (r : Root) :
    (s.saveProposal slot r).attestations = s.attestations := rfl

theorem attestations_saveAttestation (s : Store) (r : Root) (d : AttestationData) :
    (s.saveAttestation r d).attestations
      = ⟨d.source.epoch, d.target.epoch, r⟩ :: s.attestations := rfl

/-! ### Accept and reject characterizations of the engine -/

theorem checkProposal_accept {s s1 : Store} {r : Root} {slot : Nat}
    (h : checkProposal s r slot = (.notSlashable, s1)) :
    s1 = s.saveProposal slot r ∧
    ∀ r0, s.proposalHistoryForSlot slot = some r0 → r0 = r ∧ r0 ≠ zeroRoot := by
  simp only [checkProposal] at h
  split at h
  · simp at h
  · split at h
    · simp at h
    · obtain ⟨-, h2⟩ := Prod.mk.injEq .. ▸ h
      rename_i hc _
      refine ⟨h2.symm, fun r0 h0 => ?_⟩
      rw [h0] at hc
      simp [proposalRootIsDifferent] at hc
      exact ⟨hc.2, hc.1⟩

theorem checkProposal_cases (s : Store) (r : Root) (slot : Nat) :
    checkProposal s r slot = (.notSlashable, s.saveProposal slot r) ∨
    ((checkProposal s r slot).1 ≠ .notSlashable ∧ (checkProposal s r slot).2 = s) := by
  simp only [checkProposal]
  split
  · right; simp
  · split
    · right; simp
    · left; rfl

theorem checkAttestation_cases (s : Store) (r : Root) (d : AttestationData) :
    checkAttestation s r d = (.notSlashable, s.saveAttestation r d) ∨
    ((checkAttestation s r d).1 ≠ .notSlashable ∧ (checkAttestation s r d).2 = s) := by
  simp only [checkAttestation]
  split
  · right; simp
  · split
    · right; simp
    · split <;> first | (left; rfl) | (right; simp)

theorem checkAttestation_accept {s s1 : Store} {r : Root} {d : AttestationData}
    (h : checkAttestation s r d = (.notSlashable, s1)) :
    s1 = s.saveAttestation r d ∧ s.checkSlashableAttestation r d = .noKind := by
  refine ⟨?_, ?_⟩
  · rcases checkAttestation_cases s r d with hc | hc
    · rw [h] at hc
      exact ((Prod.mk.injEq ..).mp hc).2
    · rw [h] at hc
      simp at hc
  · simp only [checkAttestation] at h
    split at h
    · simp at h
    · split at h
      · simp at h
      · split at h <;> simp_all

theorem noKind_no_double {s : Store} {r : Root} {d : AttestationData}
    (h : s.checkSlashableAttestation r d = .noKind) :
    ∀ r0, s.signingRootAtTargetEpoch d.target.epoch = some r0 → r0 = r ∧ r0 ≠ zeroRoot := by
  intro r0 h0
  simp only [Store.checkSlashableAttestation] at h
  split at h
  · simp at h
  · rename_i hc
    rw [h0] at hc
    simp [rootsDiffer] at hc
    exact ⟨hc.2, hc.1⟩

theorem noKind_no_surround {s : Store} {r : Root} {d : AttestationData}
    (h : s.checkSlashableAttestation r d = .noKind) :
    ∀ rec ∈ s.attestations,
      ¬(d.source.epoch < rec.source ∧ rec.target < d.target.epoch) ∧
      ¬(rec.source < d.source.epoch ∧ d.target.epoch < rec.target) := by
  intro rec hrec
  simp only [Store.checkSlashableAttestation] at h
  split at h
  · simp at h
  · split at h
    · simp at h
    · split at h
      · simp at h
      · rename_i hsing hsed
        simp only [List.any_eq_true, not_exists, surrounds] at hsing hsed
        push_neg at hsing hsed
        exact ⟨by simpa using hsing rec hrec, by simpa using hsed rec hrec⟩

theorem applyOp_reject {s : Store} {op : Op}
    (h : (applyOp s op).1 ≠ .notSlashable) : (applyOp s op).2 = s := by
  cases op with
  | proposal r slot =>
    rcases checkProposal_cases s r slot with hc | hc
    · rw [applyOp] at h
      rw [hc] at h
      simp at h
    · exact hc.2
  | attestation r d =>
    rcases checkAttestation_cases s r d with hc | hc
    · rw [applyOp] at h
      rw [hc] at h
      simp at h
    · exact hc.2

/-! ### Preservation of the history invariant -/

theorem goalOK_extend {acc : List Op} {op : Op} (h : goalOK acc)
    (hcross : ∀ a ∈ acc, pairOK a op ∧ pairOK op a) (hself : pairOK op op) :
    goalOK (acc ++ [op]) := by
  intro a ha b hb
  rcases List.mem_append.mp ha with ha2 | ha2 <;> rcases List.mem_append.mp hb with hb2 | hb2
  · exact h a ha2 b hb2
  · rw [List.mem_singleton] at hb2
    subst hb2
    exact (hcross a ha2).1
  · rw [List.mem_singleton] at ha2
    subst ha2
    exact (hcross b hb2).2
  · rw [List.mem_singleton] at ha2
    rw [List.mem_singleton] at hb2
    subst ha2
    subst hb2
    exact hself

theorem inv_step_accept {s s1 : Store} {acc : List Op} {op : Op}
    (hInv : Inv s acc) (h : applyOp s op = (.notSlashable, s1)) : Inv s1 (acc ++ [op]) := by
  cases op with
  | proposal r slot =>
    rw [applyOp] at h
    obtain ⟨hs1, hcond⟩ := checkProposal_accept h
    subst hs1
    refine ⟨?_, ?_, ?_, ?_⟩
    · intro r0 slot0 hmem
      rcases List.mem_append.mp hmem with hold | hnew
      · by_cases hsl : slot0 = slot
        · subst hsl
          have hold2 := hInv.prop_root r0 slot0 hold
          have hr0 := (hcond r0 hold2).1
          subst hr0
          exact proposalHistory_saveProposal_self s slot0 r0
        · rw [proposalHistory_saveProposal_other s slot slot0 r hsl]
          exact hInv.prop_root r0 slot0 hold
      · simp at hnew
        obtain ⟨hr, hsl⟩ := hnew
        subst hr
        subst hsl
        exact proposalHistory_saveProposal_self s slot0 r0
    · intro r0 d0 hmem
      rcases List.mem_append.mp hmem with hold | hnew
      · exact hInv.att_root r0 d0 hold
      · simp at hnew
    · intro r0 d0 hmem
      rcases List.mem_append.mp hmem with hold | hnew
      · exact hInv.att_log r0 d0 hold
      · simp at hnew
    · refine goalOK_extend hInv.pairs ?_ ?_
      · intro a ha
        cases a with
        | proposal r1 sl1 =>
          constructor
          · intro heq
            have hh := hInv.prop_root r1 sl1 ha
            rw [heq] at hh
            exact (hcond r1 hh).1
          · intro heq
            have hh := hInv.prop_root r1 sl1 ha
            rw [← heq] at hh
            exact ((hcond r1 hh).1).symm
        | attestation r1 d1 => exact ⟨trivial, trivial⟩
      · intro _
        rfl
  | attestation r d =>
    rw [applyOp] at h
    obtain ⟨hs1, hkind⟩ := checkAttestation_accept h
    subst hs1
    have hdouble := noKind_no_double hkind
    have hsurr := noKind_no_surround hkind
    refine ⟨?_, ?_, ?_, ?_⟩
    · intro r0 slot0 hmem
      rcases List.mem_append.mp hmem with hold | hnew
      · rw [proposalHistory_saveAttestation]
        exact hInv.prop_root r0 slot0 hold
      · simp at hnew
    · intro r0 d0 hmem
      rcases List.mem_append.mp hmem with hold | hnew
      · by_cases hte : d0.target.epoch = d.target.epoch
        · have hold2 := hInv.att_root r0 d0 hold
          rw [hte] at hold2
          have hr0 := (hdouble r0 hold2).1
          subst hr0
          rw [hte]
          exact signingRootAt_saveAttestation_self s r0 d
        · rw [signingRootAt_saveAttestation_other s r d d0.target.epoch hte]
          exact hInv.att_root r0 d0 hold
      · simp at hnew
        obtain ⟨hr, hd⟩ := hnew
        subst hr
        subst hd
        exact signingRootAt_saveAttestation_self s r0 d0
    · intro r0 d0 hmem
      rcases List.mem_append.mp hmem with hold | hnew
      · obtain ⟨rec, hrec, hsrc, htgt⟩ := hInv.att_log r0 d0 hold
        refine ⟨rec, ?_, hsrc, htgt⟩
        rw [attestations_saveAttestation]
        exact List.mem_cons_of_mem _ hrec
      · simp at hnew
        obtain ⟨hr, hd⟩ := hnew
        subst hr
        subst hd
        refine ⟨⟨d0.source.epoch, d0.target.epoch, r0⟩, ?_, rfl, rfl⟩
        rw [attestations_saveAttestation]
        exact List.mem_cons_self _ _
    · refine goalOK_extend hInv.pairs ?_ ?_
      · intro a ha
        cases a with
        | proposal r1 sl1 => exact ⟨trivial, trivial⟩
        | attestation r1 d1 =>
          obtain ⟨rec, hrec, hsrc, htgt⟩ := hInv.att_log r1 d1 ha
          have hroot : d1.target.epoch = d.target.epoch → r1 = r := by
            intro hte
            have hold2 := hInv.att_root r1 d1 ha
            rw [hte] at hold2
            exact (hdouble r1 hold2).1
          have hs2 := hsurr rec hrec
          constructor
          · refine ⟨hroot, ?_⟩
            rw [← hsrc, ← htgt]
            exact hs2.2
          · refine ⟨fun hte => (hroot hte.symm).symm, ?_⟩
            rw [← hsrc, ← htgt]
            exact hs2.1
      · exact ⟨fun _ => rfl, by omega⟩

theorem runOps_inv : ∀ (ops : List Op) (s : Store) (acc : List Op), Inv s acc →
    Inv (runOps s ops).1 (acc ++ (runOps s ops).2) := by
  intro ops
  induction ops with
  | nil =>
    intro s acc h
    simpa [runOps] using h
  | cons op rest ih =>
    intro s acc h
    rcases hap : applyOp s op with ⟨v, s1⟩
    by_cases hv : v = Verdict.notSlashable
    · subst hv
      have h2 := inv_step_accept h hap
      have h3 := ih s1 (acc ++ [op]) h2
      simpa [runOps, hap, List.append_assoc] using h3
    · have hs : s1 = s := by
        have h4 : (applyOp s op).2 = s := applyOp_reject (by rw [hap]; simpa using hv)
        rw [hap] at h4
        exact h4
      subst hs
      have h3 := ih s1 acc h
      simpa [runOps, hap, hv] using h3

/-! ### Further helper lemmas -/

theorem clientProcess_ok {h : Nat} {resp : CheckResponse} {v : Verdict}
    (hok : clientProcessResponse h resp = Except.ok v) :
    resp.hash = h ∧ resp.errorMsg = "" ∧ resp.check = some v := by
  simp only [clientProcessResponse] at hok
  split at hok
  · simp at hok
  · split at hok
    · simp at hok
    · rename_i h1 h2
      refine ⟨not_not.mp h2, not_not.mp h1, ?_⟩
      split at hok
      · simp at hok
      · rename_i heq
        rw [heq]
        simp at hok
        rw [hok]

theorem hexDigitVal_hexDigitChar : ∀ n, n < 16 → hexDigitVal (hexDigitChar n) = some n := by
  decide

theorem hexDigitChar_ne_x : ∀ n, n < 16 → hexDigitChar n ≠ 'x' := by
  decide

theorem hexDecode_hexEncode : ∀ (bs : List Nat), (∀ b ∈ bs, b < 256) →
    hexDecode (hexEncode bs) = some bs := by
  intro bs
  induction bs with
  | nil => intro _; rfl
  | cons b bs ih =>
    intro h
    have hb : b < 256 := h b (List.mem_cons_self ..)
    have h16a : b / 16 < 16 := by omega
    have h16b : b % 16 < 16 := by omega
    simp [hexEncode, hexDecode, hexDigitVal_hexDigitChar _ h16a,
      hexDigitVal_hexDigitChar _ h16b, ih (fun x hx => h x (List.mem_cons_of_mem _ hx))]
    omega

theorem copyInto_replicate : ∀ (n d : Nat) (bs : List Nat),
    copyInto (List.replicate n d) bs = bs.take n ++ List.replicate (n - bs.length) d := by
  intro n d bs
  induction bs generalizing n with
  | nil => cases n <;> simp [copyInto, List.replicate_succ]
  | cons b bs ih =>
    cases n with
    | zero => simp [copyInto]
    | succ n => simp [List.replicate_succ, copyInto, ih]

theorem dropHexMark_hexEncode : ∀ (bs : List Nat), (∀ b ∈ bs, b < 256) →
    dropHexMark (hexEncode bs) = hexEncode bs := by
  intro bs h
  cases bs with
  | nil => rfl
  | cons b bs =>
    have hb : b % 16 < 16 := Nat.mod_lt _ (by omega)
    simp only [hexEncode, dropHexMark]
    exact if_neg (fun hand => hexDigitChar_ne_x _ hb hand.2)

/-! ### Claim theorems -/

/-- Claim C2: CheckAttestation, for every input with non-nil source and target, evaluates
its checks in the order of the spec with short-circuiting: the strict lowest-source check
first, then the lowest-target check (gated on differing roots and using a non-strict
comparison), then the Prysm-style check, and only when every check passes is the
attestation saved and NotSlashable returned. Stated as: the code agrees pointwise with
the procedure transcribed from the spec, and the store is written exactly on the
NotSlashable outcome. -/
theorem checkAttestation_matches_spec_procedure :
    ∀ (s : Store) (r : Root) (d : AttestationData),
      checkAttestation s r d = specCheckAttestation s r d ∧
      (checkAttestation s r d).2 =
        (if (checkAttestation s r d).1 = Verdict.notSlashable
          then s.saveAttestation r d else s) := by
  intro s r d
  constructor
  · simp only [checkAttestation, specCheckAttestation]
    cases hs : s.lowestSourceEpoch <;>
      cases ht : s.lowestTargetEpoch <;>
        cases he : s.signingRootAtTargetEpoch d.target.epoch <;>
          simp [rootsDiffer, Bool.and_comm, Bool.and_left_comm, Bool.and_assoc]
  · rcases checkAttestation_cases s r d with hc | hc
    · rw [hc]
      simp
    · rw [hc.2, if_neg hc.1]

/-- Claim C3: CheckProposal returns the double-proposal verdict exactly when a proposal
is recorded at the slot with a differing root (an all-zero recorded root counts as
differing), otherwise the lowest-slot verdict exactly when the watermark exists, the
roots differ, and the watermark is at least the incoming slot (a non-strict comparison),
and otherwise saves the proposal and returns NotSlashable. Stated together with
pointwise agreement with the procedure transcribed from the spec. -/
theorem checkProposal_characterization :
    ∀ (s : Store) (r : Root) (slot : Nat),
      checkProposal s r slot = specCheckProposal s r slot ∧
      ((checkProposal s r slot).1 = Verdict.doubleProposal ↔
        ((s.proposalHistoryForSlot slot).isSome = true ∧
          proposalRootIsDifferent (s.proposalHistoryForSlot slot) r = true)) ∧
      ((checkProposal s r slot).1 = Verdict.lowProposalSlot ↔
        (¬((s.proposalHistoryForSlot slot).isSome = true ∧
            proposalRootIsDifferent (s.proposalHistoryForSlot slot) r = true) ∧
          (∃ lowest, s.lowestProposalSlot = some lowest ∧
            proposalRootIsDifferent (s.proposalHistoryForSlot slot) r = true ∧
            slot ≤ lowest))) ∧
      (checkProposal s r slot = (Verdict.notSlashable, s.saveProposal slot r) ↔
        (¬((s.proposalHistoryForSlot slot).isSome = true ∧
            proposalRootIsDifferent (s.proposalHistoryForSlot slot) r = true) ∧
          ¬(∃ lowest, s.lowestProposalSlot = some lowest ∧
            proposalRootIsDifferent (s.proposalHistoryForSlot slot) r = true ∧
            slot ≤ lowest))) := by
  intro s r slot
  have hrfl : checkProposal s r slot =
      (if ((s.proposalHistoryForSlot slot).isSome &&
            proposalRootIsDifferent (s.proposalHistoryForSlot slot) r) = true
        then (Verdict.doubleProposal, s)
        else if ((match s.lowestProposalSlot with
                  | some lowest => decide (lowest ≥ slot)
                  | none => false) &&
                 proposalRootIsDifferent (s.proposalHistoryForSlot slot) r) = true
          then (Verdict.lowProposalSlot, s)
          else (Verdict.notSlashable, s.saveProposal slot r)) := rfl
  have hBiff : ((match s.lowestProposalSlot with
                  | some lowest => decide (lowest ≥ slot)
                  | none => false) &&
                 proposalRootIsDifferent (s.proposalHistoryForSlot slot) r) = true ↔
      (∃ lowest, s.lowestProposalSlot = some lowest ∧
        proposalRootIsDifferent (s.proposalHistoryForSlot slot) r = true ∧
        slot ≤ lowest) := by
    cases hl : s.lowestProposalSlot <;> simp [ge_iff_le, and_comm]
  refine ⟨?_, ?_, ?_, ?_⟩
  · simp only [checkProposal, specCheckProposal]
    cases hp : s.proposalHistoryForSlot slot <;>
      cases hl : s.lowestProposalSlot <;>
        simp [proposalRootIsDifferent, Bool.and_comm, Bool.and_left_comm, Bool.and_assoc,
          ge_iff_le, and_comm, and_left_comm, and_assoc, or_comm, or_left_comm, or_assoc]
  · rw [hrfl]
    by_cases hA : ((s.proposalHistoryForSlot slot).isSome &&
        proposalRootIsDifferent (s.proposalHistoryForSlot slot) r) = true
    · rw [if_pos hA]
      simp only [Bool.and_eq_true] at hA
      simpa using hA
    · rw [if_neg hA]
      have hA2 : ¬((s.proposalHistoryForSlot slot).isSome = true ∧
          proposalRootIsDifferent (s.proposalHistoryForSlot slot) r = true) := by
        simpa [Bool.and_eq_true] using hA
      split <;> simp [hA2]
  · rw [hrfl]
    by_cases hA : ((s.proposalHistoryForSlot slot).isSome &&
        proposalRootIsDifferent (s.proposalHistoryForSlot slot) r) = true
    · rw [if_pos hA]
      have hA2 : (s.proposalHistoryForSlot slot).isSome = true ∧
          proposalRootIsDifferent (s.proposalHistoryForSlot slot) r = true := by
        simpa [Bool.and_eq_true] using hA
      simp [hA2]
    · rw [if_neg hA]
      have hA2 : ¬((s.proposalHistoryForSlot slot).isSome = true ∧
          proposalRootIsDifferent (s.proposalHistoryForSlot slot) r = true) := by
        simpa [Bool.and_eq_true] using hA
      by_cases hB : ((match s.lowestProposalSlot with
                  | some lowest => decide (lowest ≥ slot)
                  | none => false) &&
                 proposalRootIsDifferent (s.proposalHistoryForSlot slot) r) = true
      · rw [if_pos hB]
        simp [hA2, hBiff.mp hB]
      · rw [if_neg hB]
        have hB2 := hBiff.not.mp hB
        simp [hA2, hB2]
  · rw [hrfl]
    by_cases hA : ((s.proposalHistoryForSlot slot).isSome &&
        proposalRootIsDifferent (s.proposalHistoryForSlot slot) r) = true
    · rw [if_pos hA]
      have hA2 : (s.proposalHistoryForSlot slot).isSome = true ∧
          proposalRootIsDifferent (s.proposalHistoryForSlot slot) r = true := by
        simpa [Bool.and_eq_true] using hA
      simp [hA2]
    · rw [if_neg hA]
      have hA2 : ¬((s.proposalHistoryForSlot slot).isSome = true ∧
          proposalRootIsDifferent (s.proposalHistoryForSlot slot) r = true) := by
        simpa [Bool.and_eq_true] using hA
      by_cases hB : ((match s.lowestProposalSlot with
                  | some lowest => decide (lowest ≥ slot)
                  | none => false) &&
                 proposalRootIsDifferent (s.proposalHistoryForSlot slot) r) = true
      · rw [if_pos hB]
        simp [hA2, hBiff.mp hB]
      · rw [if_neg hB]
        have hB2 := hBiff.not.mp hB
        simp [hA2, hB2]

/-- Claim C9: every proposal request with slot 0 is answered with status 400 and an
error naming the genesis slot, before the decision engine runs, and the per-validator
history is left unchanged. -/
theorem genesis_slot_rejected :
    ∀ (s : Store) (timestamp : Nat) (pubKey : List Nat) (signingRoot : Root),
      serverHandleCheckProposal s timestamp pubKey signingRoot 0 =
        ({ hash := 0, check := none, statusCode := 400,
           errorMsg := "can not propose at genesis slot" }, s) := by
  intro s timestamp pubKey signingRoot
  simp [serverHandleCheckProposal]

/-- Claim C8 (evaluation at the failing input): the permit is not left held when acquire
fails after taking it, and release frees the permit even when closing the store fails;
but releasing a handle that is not acquired does not return the ConnNotAcquired error to
the caller: the deferred semaphore release runs on that path too and over-releases the
binary semaphore, which panics. In particular a second consecutive release panics. -/
theorem conn_release_permit_discipline_eval :
    (connAcquire Conn.new false true).1 = AcquireResult.openFailed ∧
    (connAcquire Conn.new false true).2.permits = 0 ∧
    (connAcquire Conn.new false false).1 = AcquireResult.ok ∧
    (connRelease (connAcquire Conn.new false false).2 true).1 = ReleaseResult.closeFailed ∧
    (connRelease (connAcquire Conn.new false false).2 true).2.permits = 0 ∧
    (connRelease (connAcquire Conn.new false false).2 false).1 = ReleaseResult.ok ∧
    (connRelease (connRelease (connAcquire Conn.new false false).2 false).2 false).1 =
      ReleaseResult.panicked := by
  decide

/-- Claim C5: an attestation request whose source or target checkpoint is missing is
rejected by the check pipeline with the InvalidInput error from request fingerprinting
(no crash), and the per-validator history is unchanged: the request never reaches the
server or the engine. -/
theorem nil_checkpoint_rejected_invalid_input :
    ∀ (s : Store) (now : Nat) (pubKey : List Nat) (signingRoot : Root)
      (d : AttestationDataJ), d.source = none ∨ d.target = none →
      clientCheckAttestation s now pubKey signingRoot (some d) =
        (Except.error ClientError.invalidInput, s) := by
  intro s now pubKey signingRoot d h
  obtain ⟨sl, ix, bb, src, tgt⟩ := d
  rcases h with h | h
  · simp only at h
    subst h
    cases tgt <;> rfl
  · simp only at h
    subst h
    cases src <;> rfl

/-- Claim C1: over every sequence of checks on one per-validator history, the recorded
requests satisfy the invariants: no two recorded proposals share a slot with different
signing roots, no two recorded attestations share a target epoch with different signing
roots, and no recorded attestation surrounds another recorded one (for any pair with
a.source < b.source and b.target < a.target, at least one was rejected). -/
theorem recorded_history_invariants (ops : List Op) :
    (∀ (r1 : Root) (sl1 : Nat) (r2 : Root) (sl2 : Nat),
      Op.proposal r1 sl1 ∈ recordedOps ops → Op.proposal r2 sl2 ∈ recordedOps ops →
      sl1 = sl2 → r1 = r2) ∧
    (∀ (r1 : Root) (d1 : AttestationData) (r2 : Root) (d2 : AttestationData),
      Op.attestation r1 d1 ∈ recordedOps ops → Op.attestation r2 d2 ∈ recordedOps ops →
      d1.target.epoch = d2.target.epoch → r1 = r2) ∧
    (∀ (r1 : Root) (d1 : AttestationData) (r2 : Root) (d2 : AttestationData),
      Op.attestation r1 d1 ∈ recordedOps ops → Op.attestation r2 d2 ∈ recordedOps ops →
      ¬(d1.source.epoch < d2.source.epoch ∧ d2.target.epoch < d1.target.epoch)) := by
  have hinv0 : Inv Store.empty [] := by
    refine ⟨?_, ?_, ?_, ?_⟩ <;> intro a <;> intro <;> simp_all
  have hfin := runOps_inv ops Store.empty [] hinv0
  have hpairs : goalOK (recordedOps ops) := by
    have hp := hfin.pairs
    simpa [recordedOps] using hp
  refine ⟨?_, ?_, ?_⟩
  · intro r1 sl1 r2 sl2 h1 h2 heq
    exact (hpairs _ h1 _ h2) heq
  · intro r1 d1 r2 d2 h1 h2 heq
    exact (hpairs _ h1 _ h2).1 heq
  · intro r1 d1 r2 d2 h1 h2
    exact (hpairs _ h1 _ h2).2

/-- Claim C4 (counterexample): with the all-zero signing root, resubmitting the very
same accepted proposal or attestation is not NotSlashable the second time: the recorded
zero root counts as differing from everything, including itself, so the second proposal
is a double proposal and the second attestation trips the lowest-target check. -/
theorem double_submit_zero_root_counterexample :
    (checkProposal Store.empty zeroRoot 1).1 = Verdict.notSlashable ∧
    (checkProposal (checkProposal Store.empty zeroRoot 1).2 zeroRoot 1).1 =
      Verdict.doubleProposal ∧
    (checkAttestation Store.empty zeroRoot ⟨0, 0, zeroRoot, ⟨0, zeroRoot⟩, ⟨1, zeroRoot⟩⟩).1 =
      Verdict.notSlashable ∧
    (checkAttestation
      (checkAttestation Store.empty zeroRoot ⟨0, 0, zeroRoot, ⟨0, zeroRoot⟩, ⟨1, zeroRoot⟩⟩).2
      zeroRoot ⟨0, 0, zeroRoot, ⟨0, zeroRoot⟩, ⟨1, zeroRoot⟩⟩).1 = Verdict.lowTargetEpoch := by
  decide

/-- Claim C4 (amended): for a signing root that is not all-zero, a proposal or an
attestation accepted as NotSlashable stays NotSlashable when submitted again
immediately: the write it caused is idempotent for the decision. -/
theorem resubmission_not_slashable_nonzero_root :
    (∀ (s : Store) (r : Root) (slot : Nat) (s1 : Store), r ≠ zeroRoot →
      checkProposal s r slot = (Verdict.notSlashable, s1) →
      (checkProposal s1 r slot).1 = Verdict.notSlashable) ∧
    (∀ (s : Store) (r : Root) (d : AttestationData) (s1 : Store), r ≠ zeroRoot →
      checkAttestation s r d = (Verdict.notSlashable, s1) →
      (checkAttestation s1 r d).1 = Verdict.notSlashable) := by
  constructor
  · intro s r slot s1 hr h
    obtain ⟨hs1, -⟩ := checkProposal_accept h
    subst hs1
    simp [checkProposal, proposalHistory_saveProposal_self, proposalRootIsDifferent, hr]
  · intro s r d s1 hr h
    obtain ⟨hs1, hkind⟩ := checkAttestation_accept h
    subst hs1
    have hsurr := noKind_no_surround hkind
    have hc1 : (match (s.saveAttestation r d).lowestSourceEpoch with
        | some lowest => decide (d.source.epoch < lowest)
        | none => false) = false := by
      cases ho : s.lowestSourceEpoch <;>
        simp [Store.saveAttestation, minOpt, ho]
    have hdiff : rootsDiffer
        ((s.saveAttestation r d).signingRootAtTargetEpoch d.target.epoch) r = false := by
      rw [signingRootAt_saveAttestation_self]
      simp [rootsDiffer, hr]
    have hany1 : ¬∃ x ∈ s.attestations,
        d.source.epoch < x.source ∧ x.target < d.target.epoch := by
      rintro ⟨x, hx, hlt⟩
      exact (hsurr x hx).1 hlt
    have hany2 : ¬∃ x ∈ s.attestations,
        x.source < d.source.epoch ∧ d.target.epoch < x.target := by
      rintro ⟨x, hx, hlt⟩
      exact (hsurr x hx).2 hlt
    have hkind2 : (s.saveAttestation r d).checkSlashableAttestation r d = .noKind := by
      simp only [Store.checkSlashableAttestation, attestations_saveAttestation,
        signingRootAt_saveAttestation_self]
      simp [rootsDiffer, hr, List.any_cons, surrounds, hany1, hany2]
    simp [checkAttestation, hc1, hdiff, hkind2]

set_option maxRecDepth 40000 in
/-- Claim C6: the request fingerprint is xxHash64 of the canonical byte sequence: the
concrete proposal request of the spec hashes to 0xdc56a40de8bcb724, the concrete
attestation request to 0x629b4bff388aeb6a, and mutating the fields one by one, as the
unit tests do, yields pairwise distinct fingerprints. -/
theorem request_fingerprint_values :
    proposalRequestHash 1000 (bytesPad [1, 2, 3] 48) (bytesPad [4, 5, 6] 32) 7 =
      0xdc56a40de8bcb724 ∧
    attestationRequestHash 1000 (bytesPad [1, 2, 3] 48) (bytesPad [4, 5, 6] 32) 7 8
      (bytesPad [9, 10, 11] 32) ⟨15, bytesPad [12, 13, 14] 32⟩
      ⟨19, bytesPad [16, 17, 18] 32⟩ = 0x629b4bff388aeb6a ∧
    [proposalRequestHash 1000 (bytesPad [1, 2, 3] 48) (bytesPad [4, 5, 6] 32) 7,
     proposalRequestHash 1001 (bytesPad [1, 2, 3] 48) (bytesPad [4, 5, 6] 32) 7,
     proposalRequestHash 1001 (bytesPad [1, 2, 4] 48) (bytesPad [4, 5, 6] 32) 7,
     proposalRequestHash 1001 (bytesPad [1, 2, 4] 48) (bytesPad [4, 5, 7] 32) 7,
     proposalRequestHash 1001 (bytesPad [1, 2, 4] 48) (bytesPad [4, 5, 7] 32) 8].Nodup ∧
    [attestationRequestHash 1000 (bytesPad [1, 2, 3] 48) (bytesPad [4, 5, 6] 32) 7 8
       (bytesPad [9, 10, 11] 32) ⟨15, bytesPad [12, 13, 14] 32⟩ ⟨19, bytesPad [16, 17, 18] 32⟩,
     attestationRequestHash 1001 (bytesPad [1, 2, 3] 48) (bytesPad [4, 5, 6] 32) 7 8
       (bytesPad [9, 10, 11] 32) ⟨15, bytesPad [12, 13, 14] 32⟩ ⟨19, bytesPad [16, 17, 18] 32⟩,
     attestationRequestHash 1001 (bytesPad [1, 2, 4] 48) (bytesPad [4, 5, 6] 32) 7 8
       (bytesPad [9, 10, 11] 32) ⟨15, bytesPad [12, 13, 14] 32⟩ ⟨19, bytesPad [16, 17, 18] 32⟩,
     attestationRequestHash 1001 (bytesPad [1, 2, 4] 48) (bytesPad [4, 5, 7] 32) 7 8
       (bytesPad [9, 10, 11] 32) ⟨15, bytesPad [12, 13, 14] 32⟩ ⟨19, bytesPad [16, 17, 18] 32⟩,
     attestationRequestHash 1001 (bytesPad [1, 2, 4] 48) (bytesPad [4, 5, 7] 32) 20 8
       (bytesPad [9, 10, 11] 32) ⟨15, bytesPad [12, 13, 14] 32⟩ ⟨19, bytesPad [16, 17, 18] 32⟩,
     attestationRequestHash 1001 (bytesPad [1, 2, 4] 48) (bytesPad [4, 5, 7] 32) 20 21
       (bytesPad [9, 10, 11] 32) ⟨15, bytesPad [12, 13, 14] 32⟩ ⟨19, bytesPad [16, 17, 18] 32⟩,
     attestationRequestHash 1001 (bytesPad [1, 2, 4] 48) (bytesPad [4, 5, 7] 32) 20 21
       (bytesPad [22, 23, 24] 32) ⟨15, bytesPad [12, 13, 14] 32⟩ ⟨19, bytesPad [16, 17, 18] 32⟩,
     attestationRequestHash 1001 (bytesPad [1, 2, 4] 48) (bytesPad [4, 5, 7] 32) 20 21
       (bytesPad [22, 23, 24] 32) ⟨15, bytesPad [25, 26, 27] 32⟩ ⟨19, bytesPad [16, 17, 18] 32⟩,
     attestationRequestHash 1001 (bytesPad [1, 2, 4] 48) (bytesPad [4, 5, 7] 32) 20 21
       (bytesPad [22, 23, 24] 32) ⟨28, bytesPad [25, 26, 27] 32⟩ ⟨19, bytesPad [16, 17, 18] 32⟩,
     attestationRequestHash 1001 (bytesPad [1, 2, 4] 48) (bytesPad [4, 5, 7] 32) 20 21
       (bytesPad [22, 23, 24] 32) ⟨28, bytesPad [25, 26, 27] 32⟩ ⟨19, bytesPad [29, 30, 31] 32⟩,
     attestationRequestHash 1001 (bytesPad [1, 2, 4] 48) (bytesPad [4, 5, 7] 32) 20 21
       (bytesPad [22, 23, 24] 32) ⟨28, bytesPad [25, 26, 27] 32⟩
       ⟨32, bytesPad [29, 30, 31] 32⟩].Nodup := by
  decide

/-- Claim C7: the server echoes the request fingerprint in the hash field of its
response, and the client verifies it: it returns a verdict only when the echoed hash
equals its locally computed one, it errors on any mismatch, and it refuses to send a
request whose local fingerprint is zero. -/
theorem fingerprint_echo_and_client_verification :
    (∀ (h : Nat) (resp : CheckResponse) (v : Verdict),
      clientProcessResponse h resp = Except.ok v → resp.hash = h) ∧
    (∀ (h : Nat) (resp : CheckResponse), resp.hash ≠ h →
      ∀ v, clientProcessResponse h resp ≠ Except.ok v) ∧
    (∀ (s : Store) (now : Nat) (pk : List Nat) (sr : Root) (d : AttestationDataJ),
      clientSendAttestation s 0 now pk sr d = (Except.error ClientError.zeroHash, s)) ∧
    (∀ (s : Store) (ts : Nat) (pk : List Nat) (sr : Root) (slot : Nat), slot ≠ 0 →
      (serverHandleCheckProposal s ts pk sr slot).1.hash = proposalRequestHash ts pk sr slot) ∧
    (∀ (s : Store) (ts : Nat) (pk : List Nat) (sr : Root) (d : AttestationDataJ)
      (src tgt : Checkpoint), d.source = some src → d.target = some tgt →
      (serverHandleCheckAttestation s ts pk sr d).1.hash =
        attestationRequestHash ts pk sr d.slot d.index d.beaconBlockRoot src tgt) := by
  refine ⟨?_, ?_, ?_, ?_, ?_⟩
  · intro h resp v hok
    exact (clientProcess_ok hok).1
  · intro h resp hne v hok
    exact hne (clientProcess_ok hok).1
  · intro s now pk sr d
    simp [clientSendAttestation]
  · intro s ts pk sr slot hslot
    simp [serverHandleCheckProposal, hslot]
  · intro s ts pk sr d src tgt hsrc htgt
    obtain ⟨sl, ix, bb, dsrc, dtgt⟩ := d
    simp only at hsrc htgt
    subst hsrc
    subst htgt
    rfl

/-- Claim C10: the JSON hex decoders for pub_key and signing_root accept any even-length
hex value regardless of the declared 48- and 32-byte sizes, with or without the 0x
marker: a shorter value is accepted with the remaining bytes zero, a longer value is
accepted with its excess discarded, and no length validation is performed. -/
theorem hex_decoders_length_lenient :
    ∀ (bs : List Nat), (∀ b ∈ bs, b < 256) →
      (unmarshalPubKey (hexEncode bs) =
          some (bs.take 48 ++ List.replicate (48 - bs.length) 0) ∧
        unmarshalPubKey ('0' :: 'x' :: hexEncode bs) = unmarshalPubKey (hexEncode bs) ∧
        (bs.length ≤ 48 →
          unmarshalPubKey (hexEncode bs) = some (bs ++ List.replicate (48 - bs.length) 0)) ∧
        (48 ≤ bs.length → unmarshalPubKey (hexEncode bs) = some (bs.take 48))) ∧
      (unmarshalRoot (hexEncode bs) =
          some (bs.take 32 ++ List.replicate (32 - bs.length) 0) ∧
        unmarshalRoot ('0' :: 'x' :: hexEncode bs) = unmarshalRoot (hexEncode bs) ∧
        (bs.length ≤ 32 →
          unmarshalRoot (hexEncode bs) = some (bs ++ List.replicate (32 - bs.length) 0)) ∧
        (32 ≤ bs.length → unmarshalRoot (hexEncode bs) = some (bs.take 32))) := by
  intro bs h
  have hdec := hexDecode_hexEncode bs h
  have hdrop := dropHexMark_hexEncode bs h
  have hmark : dropHexMark ('0' :: 'x' :: hexEncode bs) = hexEncode bs := by
    simp [dropHexMark]
  have hbase48 : unmarshalPubKey (hexEncode bs) =
      some (bs.take 48 ++ List.replicate (48 - bs.length) 0) := by
    unfold unmarshalPubKey unmarshalHexInto
    rw [hdrop, hdec, Option.map_some', copyInto_replicate]
  have hbase32 : unmarshalRoot (hexEncode bs) =
      some (bs.take 32 ++ List.replicate (32 - bs.length) 0) := by
    unfold unmarshalRoot unmarshalHexInto
    rw [hdrop, hdec, Option.map_some', copyInto_replicate]
  refine ⟨⟨hbase48, ?_, ?_, ?_⟩, ⟨hbase32, ?_, ?_, ?_⟩⟩
  · simp [unmarshalPubKey, unmarshalHexInto, hmark, hdrop]
  · intro hle
    rw [hbase48, List.take_of_length_le hle]
  · intro hge
    rw [hbase48, Nat.sub_eq_zero_of_le hge]
    simp
  · simp [unmarshalRoot, unmarshalHexInto, hmark, hdrop]
  · intro hle
    rw [hbase32, List.take_of_length_le hle]
  · intro hge
    rw [hbase32, Nat.sub_eq_zero_of_le hge]
    simp

/-! ### Witnesses -/

/-- Concrete witness for the history invariants: in the run of two valid consecutive
attestations (sources 0 then 1, targets 1 then 2, same non-zero root) both are
recorded, and the recorded pair does not surround. -/
theorem recorded_history_invariants_witness : ¬((0 : Nat) < 1 ∧ (2 : Nat) < 1) :=
  (recorded_history_invariants
      [Op.attestation (bytesPad [1] 32)
        ⟨5, 0, zeroRoot, ⟨0, zeroRoot⟩, ⟨1, zeroRoot⟩⟩,
       Op.attestation (bytesPad [1] 32)
        ⟨6, 0, zeroRoot, ⟨1, zeroRoot⟩, ⟨2, zeroRoot⟩⟩]).2.2
    (bytesPad [1] 32) ⟨5, 0, zeroRoot, ⟨0, zeroRoot⟩, ⟨1, zeroRoot⟩⟩
    (bytesPad [1] 32) ⟨6, 0, zeroRoot, ⟨1, zeroRoot⟩, ⟨2, zeroRoot⟩⟩
    (by decide) (by decide)

/-- Concrete witness for resubmission with a non-zero root: after accepting the
proposal at slot 5 and the attestation with target 1, resubmitting each is again
NotSlashable. -/
theorem resubmission_not_slashable_nonzero_root_witness :
    (checkProposal (Store.mk [(5, bytesPad [1] 32)] [] none none (some 5))
      (bytesPad [1] 32) 5).1 = Verdict.notSlashable ∧
    (checkAttestation (Store.mk [] [⟨0, 1, bytesPad [1] 32⟩] (some 0) (some 1) none)
      (bytesPad [1] 32) ⟨5, 0, zeroRoot, ⟨0, zeroRoot⟩, ⟨1, zeroRoot⟩⟩).1 =
      Verdict.notSlashable :=
  ⟨resubmission_not_slashable_nonzero_root.1 Store.empty (bytesPad [1] 32) 5
      (Store.mk [(5, bytesPad [1] 32)] [] none none (some 5)) (by decide) (by decide),
   resubmission_not_slashable_nonzero_root.2 Store.empty (bytesPad [1] 32)
      ⟨5, 0, zeroRoot, ⟨0, zeroRoot⟩, ⟨1, zeroRoot⟩⟩
      (Store.mk [] [⟨0, 1, bytesPad [1] 32⟩] (some 0) (some 1) none) (by decide) (by decide)⟩

/-- Concrete witness for the nil-checkpoint rejection: an attestation without source
and target checkpoints is answered with InvalidInput and the store is untouched. -/
theorem nil_checkpoint_rejected_invalid_input_witness :
    clientCheckAttestation Store.empty 0 (bytesPad [] 48) (bytesPad [] 32)
      (some ⟨0, 0, zeroRoot, none, none⟩) =
      (Except.error ClientError.invalidInput, Store.empty) :=
  nil_checkpoint_rejected_invalid_input Store.empty 0 (bytesPad [] 48) (bytesPad [] 32)
    ⟨0, 0, zeroRoot, none, none⟩ (Or.inl rfl)

/-- Concrete witness for the fingerprint verification: a verdict implies the echoed
hash matched, a mismatching echo is never a verdict, a zero local fingerprint aborts,
and the server echo equals the request fingerprint on a concrete proposal. -/
theorem fingerprint_echo_and_client_verification_witness :
    (CheckResponse.mk 7 (some Verdict.notSlashable) 0 "").hash = 7 ∧
    clientProcessResponse 3 (CheckResponse.mk 4 (some Verdict.notSlashable) 0 "") ≠
      Except.ok Verdict.notSlashable ∧
    clientSendAttestation Store.empty 0 0 (bytesPad [] 48) (bytesPad [] 32)
      ⟨0, 0, zeroRoot, some ⟨0, zeroRoot⟩, some ⟨1, zeroRoot⟩⟩ =
      (Except.error ClientError.zeroHash, Store.empty) ∧
    (serverHandleCheckProposal Store.empty 1000 (bytesPad [1, 2, 3] 48)
      (bytesPad [4, 5, 6] 32) 7).1.hash =
      proposalRequestHash 1000 (bytesPad [1, 2, 3] 48) (bytesPad [4, 5, 6] 32) 7 ∧
    (serverHandleCheckAttestation Store.empty 1000 (bytesPad [1, 2, 3] 48)
      (bytesPad [4, 5, 6] 32) ⟨7, 8, bytesPad [9, 10, 11] 32,
        some ⟨15, bytesPad [12, 13, 14] 32⟩, some ⟨19, bytesPad [16, 17, 18] 32⟩⟩).1.hash =
      attestationRequestHash 1000 (bytesPad [1, 2, 3] 48) (bytesPad [4, 5, 6] 32) 7 8
        (bytesPad [9, 10, 11] 32) ⟨15, bytesPad [12, 13, 14] 32⟩
        ⟨19, bytesPad [16, 17, 18] 32⟩ :=
  ⟨fingerprint_echo_and_client_verification.1 7
      (CheckResponse.mk 7 (some Verdict.notSlashable) 0 "") Verdict.notSlashable rfl,
   fingerprint_echo_and_client_verification.2.1 3
      (CheckResponse.mk 4 (some Verdict.notSlashable) 0 "") (by decide) Verdict.notSlashable,
   fingerprint_echo_and_client_verification.2.2.1 Store.empty 0 (bytesPad [] 48)
      (bytesPad [] 32) ⟨0, 0, zeroRoot, some ⟨0, zeroRoot⟩, some ⟨1, zeroRoot⟩⟩,
   fingerprint_echo_and_client_verification.2.2.2.1 Store.empty 1000 (bytesPad [1, 2, 3] 48)
      (bytesPad [4, 5, 6] 32) 7 (by decide),
   fingerprint_echo_and_client_verification.2.2.2.2 Store.empty 1000 (bytesPad [1, 2, 3] 48)
      (bytesPad [4, 5, 6] 32) ⟨7, 8, bytesPad [9, 10, 11] 32,
        some ⟨15, bytesPad [12, 13, 14] 32⟩, some ⟨19, bytesPad [16, 17, 18] 32⟩⟩
      ⟨15, bytesPad [12, 13, 14] 32⟩ ⟨19, bytesPad [16, 17, 18] 32⟩ rfl rfl⟩

/-- Concrete witness for the hex decoders: the two-byte value ab cd decodes into the
48-byte array padded with zeros. -/
theorem hex_decoders_length_lenient_witness :
    unmarshalPubKey (hexEncode [171, 205]) =
      some (List.take 48 [171, 205] ++ List.replicate (48 - List.length [171, 205]) 0) :=
  ((hex_decoders_length_lenient [171, 205] (by decide)).1).1

end SlashingProtector
